import Mathlib

/-!
Verification development for the planit repository.

Shallow embedding of the three source files under src/planit:
cli.py (argument parsing), main.py (the entry point dispatch) and
core/task.py (the Task data holder), together with models of the
task-validation and recurrence-expansion operations of the design
specification (sections 4.1 and 4.2), which have no implementation
in the source tree.
-/

namespace Planit

/-- A calendar date in the proleptic Gregorian calendar, the point-in-time
value used for task start/end fields and for recurrence expansion. -/
structure Date where
  year : Nat
  month : Nat
  day : Nat
  deriving DecidableEq, Repr

/-- Chronological order on dates: lexicographic on (year, month, day). -/
def Date.ble (a b : Date) : Bool :=
  Nat.blt a.year b.year ||
    (a.year == b.year &&
      (Nat.blt a.month b.month ||
        (a.month == b.month && Nat.ble a.day b.day)))

/-- A strictly monotone injection of valid dates into Nat (month up to 12,
day up to 31), used only to size the fuel of the expansion loop. -/
def Date.rank (d : Date) : Nat :=
  d.year * 416 + d.month * 32 + d.day

/-- The argparse Namespace produced by cli.parse_cli: the sole destination
is the subcommand string (dest="command", required=False, so it may be
absent). -/
structure CliArgs where
  command : Option String
  deriving DecidableEq, Repr

/-- cli.parse_cli: an argparse parser with the optional subcommands
"list" (alias "ls") and "add", neither taking further arguments.
Namespace.command is set to the subcommand string exactly as typed
(the alias "ls" stays "ls").  A positional outside the set is rejected
("invalid choice"), as is anything following a valid subcommand
("unrecognized arguments"); argparse rejections raise SystemExit, modelled
as the error branch.  The auto-generated help flag (which prints usage and
exits) is outside this embedding: argv elements are treated as positionals. -/
def parse_cli (argv : List String) : Except String CliArgs :=
  match argv with
  | [] => Except.ok ⟨none⟩
  | cmd :: rest =>
      if cmd = "list" ∨ cmd = "ls" ∨ cmd = "add" then
        match rest with
        | [] => Except.ok ⟨some cmd⟩
        | _ => Except.error "unrecognized arguments"
      else
        Except.error "invalid choice"

/-- Observable outcome of main.main: a printed line, an assertion failure
(Python assert False with the given message), or the SystemExit raised by
argparse on a parse failure. -/
inductive MainResult where
  | printed (line : String)
  | assertionError (msg : String)
  | cliExit (msg : String)
  deriving DecidableEq, Repr

/-- main.main: parses argv, prints the task-list header for "list"/"ls"/no
command, hits assert False "Adding items not supported" for "add", and
assert False "Unreachable" otherwise. -/
def main (argv : List String) : MainResult :=
  match parse_cli argv with
  | Except.error e => MainResult.cliExit e
  | Except.ok args =>
      if args.command = some "list" ∨ args.command = some "ls" ∨ args.command = none then
        MainResult.printed "All Todos:"
      else if args.command = some "add" then
        MainResult.assertionError "Adding items not supported"
      else
        MainResult.assertionError "Unreachable"

/-- A scalar attribute value, the value type of the open attributes
mapping (spec section 9: string, number, boolean or date). -/
inductive Scalar where
  | str (s : String)
  | num (n : Int)
  | boolean (b : Bool)
  | date (d : Date)
  deriving DecidableEq, Repr

/-- core/task.py Task: a bare data holder.  The repeat annotation in the
source is a plain string; tags is the list given (not a set); attributes
is the kwargs dictionary, modelled as an association list. -/
structure Task where
  id : Int
  name : String
  start : Option Date
  end_ : Option Date
  repeat_ : Option String
  tags : List String
  attributes : List (String × Scalar)
  deriving DecidableEq, Repr

/-- Task.__init__: stores every argument into the field of the same name,
with no checks of any kind.  The kwargs bag becomes the attributes field. -/
def Task.init (id : Int) (name : String) (start : Option Date)
    (end_ : Option Date) ( repeat_ : Option String) (tags : List String)
    (kwargs : List (String × Scalar)) : Task :=
  { id := id, name := name, start := start, end_ := end_,
    repeat_ := repeat_, tags := tags, attributes := kwargs }

/-- Whether a task satisfies start ≤ end whenever both are present
(vacuously true when either is absent). -/
def taskStartLeEnd (t : Task) : Bool :=
  match t.start, t.end_ with
  | some s, some e => s.ble e
  | _, _ => true

/-- Recurrence frequency unit (spec section 3, RecurrenceRule). -/
inductive Frequency where
  | daily
  | weekly
  | monthly
  | yearly
  deriving DecidableEq, Repr

/-- Optional end condition of a recurrence rule: an end date or an
occurrence count (spec section 3). -/
inductive EndCondition where
  | untilDate (d : Date)
  | count (n : Nat)
  deriving DecidableEq, Repr

/-- A recurrence rule: frequency, interval (every N units) and optional
end condition; absence of an end condition means unbounded repetition. -/
structure RecurrenceRule where
  frequency : Frequency
  interval : Int
  endCondition : Option EndCondition
  deriving DecidableEq, Repr

/-- The task entity as the specified core sees it (spec section 3): the
fields that validation inspects, with repeat a structured rule. -/
structure SpecTask where
  name : String
  start : Option Date
  end_ : Option Date
  repeat_ : Option RecurrenceRule
  deriving DecidableEq, Repr

/-- The error taxonomy of spec section 7 (the part the modelled
operations raise). -/
inductive CoreError where
  | invalidTask
  | invalidRule
  | invalidWindow
  deriving DecidableEq, Repr

/-- Whether both start and end are present with start strictly after end. -/
def specStartGtEnd (t : SpecTask) : Bool :=
  match t.start, t.end_ with
  | some s, some e => !(s.ble e)
  | _, _ => false

/-- Modelled from the spec: section 4.1 validate, absent from src/.
Fails with InvalidTask if name is empty, if start > end (both present),
or if a repeat rule is present with interval ≤ 0; otherwise succeeds.
A pure function, so it has no side effects. -/
def validate (t : SpecTask) : Except CoreError Unit :=
  if t.name = "" then Except.error CoreError.invalidTask
  else if specStartGtEnd t then Except.error CoreError.invalidTask
  else
    match t.repeat_ with
    | some r =>
        if r.interval ≤ 0 then Except.error CoreError.invalidTask
        else Except.ok ()
    | none => Except.ok ()

/-- Gregorian leap-year test. -/
def isLeap (y : Nat) : Bool :=
  (y % 4 == 0 && y % 100 != 0) || y % 400 == 0

/-- Days in a month of a given year. -/
def daysInMonth (y m : Nat) : Nat :=
  if m == 2 then (if isLeap y then 29 else 28)
  else if m == 4 || m == 6 || m == 9 || m == 11 then 30
  else 31

/-- Serial day number of a civil date (days since 0000-03-01 in the
proleptic Gregorian calendar), for day-granularity stepping. -/
def daysFromCivil (dt : Date) : Nat :=
  let y := if dt.month ≤ 2 then dt.year - 1 else dt.year
  let era := y / 400
  let yoe := y % 400
  let mp := if 2 < dt.month then dt.month - 3 else dt.month + 9
  let doy := (153 * mp + 2) / 5 + dt.day - 1
  let doe := yoe * 365 + yoe / 4 - yoe / 100 + doy
  era * 146097 + doe

/-- Civil date of a serial day number; inverse of daysFromCivil. -/
def civilFromDays (z : Nat) : Date :=
  let era := z / 146097
  let doe := z % 146097
  let yoe := (doe - doe / 1460 + doe / 36524 - doe / 146096) / 365
  let y := yoe + era * 400
  let doy := doe - (365 * yoe + yoe / 4 - yoe / 100)
  let mp := (5 * doy + 2) / 153
  let d := doy - (153 * mp + 2) / 5 + 1
  let m := if mp < 10 then mp + 3 else mp - 9
  ⟨if m ≤ 2 then y + 1 else y, m, d⟩

/-- Calendar-aware day stepping. -/
def Date.addDays (dt : Date) (n : Nat) : Date :=
  civilFromDays (daysFromCivil dt + n)

/-- Calendar-aware month stepping with month-end clamping (spec section
4.2: stepping one month from Jan 31 lands on the last day of February). -/
def Date.addMonthsClamped (dt : Date) (n : Nat) : Date :=
  let t := dt.year * 12 + (dt.month - 1) + n
  let y := t / 12
  let m := t % 12 + 1
  ⟨y, m, min dt.day (daysInMonth y m)⟩

/-- One step of a rule from the current position: interval days, weeks,
months or years, calendar-aware for months and years. -/
def stepOnce (r : RecurrenceRule) (pos : Date) : Date :=
  match r.frequency with
  | Frequency.daily => pos.addDays r.interval.toNat
  | Frequency.weekly => pos.addDays (7 * r.interval.toNat)
  | Frequency.monthly => pos.addMonthsClamped r.interval.toNat
  | Frequency.yearly => pos.addMonthsClamped (12 * r.interval.toNat)

/-- Whether the rule's own end condition stops the expansion at the k-th
position pos (k positions already considered). -/
def endReached (r : RecurrenceRule) (pos : Date) (k : Nat) : Bool :=
  match r.endCondition with
  | some (EndCondition.untilDate d) => !(pos.ble d)
  | some (EndCondition.count n) => Nat.ble n k
  | none => false

/-- The expansion loop: starting at pos (the k-th position), stop when the
end condition is reached or the position exceeds hi, and emit every
position that falls within [lo, hi].  Positions strictly increase, so a
fuel of hi.rank + 1 exceeds the number of positions not above hi and the
loop always stops on its own tests, never on exhausted fuel. -/
def expandAux (r : RecurrenceRule) (lo hi : Date) :
    Nat → Date → Nat → List Date
  | 0, _, _ => []
  | Nat.succ fuel, pos, k =>
      if endReached r pos k then []
      else if !(pos.ble hi) then []
      else
        (if lo.ble pos then [pos] else []) ++
          expandAux r lo hi fuel (stepOnce r pos) (k + 1)

/-- Modelled from the spec: section 4.2 expand, absent from src/.
Fails with InvalidRule if interval ≤ 0 and with InvalidWindow if the
window is inverted; otherwise steps forward from the anchor until the
position exceeds the window end or the rule's end condition is reached,
emitting every position inside [lo, hi]. -/
def expand (r : RecurrenceRule) (anchor lo hi : Date) :
    Except CoreError (List Date) :=
  if r.interval ≤ 0 then Except.error CoreError.invalidRule
  else if !(lo.ble hi) then Except.error CoreError.invalidWindow
  else Except.ok (expandAux r lo hi (hi.rank + 1) anchor 0)

/-- Claim C1: for every argument list whose parsed command is "add", main
aborts with the assertion failure "Adding items not supported" and performs
no add operation; it never returns normally on that path. -/
theorem main_add_aborts (argv : List String) (args : CliArgs)
    (h : parse_cli argv = Except.ok args) (hc : args.command = some "add") :
    main argv = MainResult.assertionError "Adding items not supported" := by
  obtain ⟨c⟩ := args
  change c = some "add" at hc
  subst hc
  unfold main
  rw [h]
  decide

/-- Witness for C1 at the concrete argument list ["add"]. -/
theorem main_add_aborts_witness :
    main ["add"] = MainResult.assertionError "Adding items not supported" :=
  main_add_aborts ["add"] ⟨some "add"⟩ rfl rfl

/-- Claim C8: running main with an empty argument list parses to command
none and behaves identically to "list" and "ls": the task-list header is
printed and parsing does not fail. -/
theorem main_no_command_like_list :
    parse_cli [] = Except.ok ⟨none⟩ ∧
    main [] = MainResult.printed "All Todos:" ∧
    main [] = main ["list"] ∧ main [] = main ["ls"] :=
  ⟨rfl, rfl, rfl, rfl⟩

/-- Claim C10: Task construction is total (a total function in this
embedding) and performs no validation: for every combination of arguments,
including an empty name and start after end, each field of the resulting
task equals the argument supplied. -/
theorem task_init_total (id : Int) (name : String) (s e : Option Date)
    (r : Option String) (tg : List String) (kw : List (String × Scalar)) :
    (Task.init id name s e r tg kw).id = id ∧
    (Task.init id name s e r tg kw).name = name ∧
    (Task.init id name s e r tg kw).start = s ∧
    (Task.init id name s e r tg kw).end_ = e ∧
    (Task.init id name s e r tg kw).repeat_ = r ∧
    (Task.init id name s e r tg kw).tags = tg ∧
    (Task.init id name s e r tg kw).attributes = kw :=
  ⟨rfl, rfl, rfl, rfl, rfl, rfl, rfl⟩

/-- Counterexample to claim C2: construction accepts start 2025-01-02
together with end 2025-01-01, so a Task with both fields present and
start > end exists; the invariant start ≤ end is not established. -/
theorem task_start_le_end_counterexample :
    (Task.init 0 "t" (some ⟨2025, 1, 2⟩) (some ⟨2025, 1, 1⟩) none [] []).start
        = some ⟨2025, 1, 2⟩ ∧
    (Task.init 0 "t" (some ⟨2025, 1, 2⟩) (some ⟨2025, 1, 1⟩) none [] []).end_
        = some ⟨2025, 1, 1⟩ ∧
    taskStartLeEnd (Task.init 0 "t" (some ⟨2025, 1, 2⟩) (some ⟨2025, 1, 1⟩)
        none [] []) = false := by
  refine ⟨rfl, rfl, ?_⟩
  decide

/-- Claim C2 as amended: Task construction performs no check relating
start and end; both are stored exactly as supplied, and a task with both
present and start > end can be constructed. -/
theorem task_start_end_unvalidated :
    (∀ (id : Int) (name : String) (s e : Option Date) (r : Option String)
        (tg : List String) (kw : List (String × Scalar)),
      (Task.init id name s e r tg kw).start = s ∧
      (Task.init id name s e r tg kw).end_ = e) ∧
    (∃ (id : Int) (name : String) (s e : Option Date) (r : Option String)
        (tg : List String) (kw : List (String × Scalar)),
      taskStartLeEnd (Task.init id name s e r tg kw) = false) :=
  ⟨fun _ _ _ _ _ _ _ => ⟨rfl, rfl⟩,
   ⟨0, "t", some ⟨2025, 1, 2⟩, some ⟨2025, 1, 1⟩, none, [], [], by decide⟩⟩

/-- Counterexample to claim C3: tags is not a set; supplying ["a", "a"]
leaves the duplicate in place, and supplying ["a", "b"] versus ["b", "a"]
yields different tags values, so order is not irrelevant. -/
theorem task_tags_counterexample :
    (Task.init 0 "t" none none none ["a", "a"] []).tags = ["a", "a"] ∧
    (Task.init 0 "t" none none none ["a", "b"] []).tags ≠
      (Task.init 0 "t" none none none ["b", "a"] []).tags := by
  refine ⟨rfl, ?_⟩
  decide

/-- Claim C3 as amended: the tags field is stored as the very list
supplied, with duplicates kept and order preserved. -/
theorem task_tags_stored_as_list :
    (∀ (id : Int) (name : String) (s e : Option Date) (r : Option String)
        (tg : List String) (kw : List (String × Scalar)),
      (Task.init id name s e r tg kw).tags = tg) ∧
    (Task.init 0 "t" none none none ["a", "a"] []).tags = ["a", "a"] :=
  ⟨fun _ _ _ _ _ _ _ => rfl, rfl⟩

/-- Claim C4: every extra keyword argument is preserved in the attributes
mapping with key and value unchanged; in fact the attributes field is the
kwargs mapping itself, so unknown keys round-trip exactly. -/
theorem task_init_preserves_kwargs (id : Int) (name : String)
    (s e : Option Date) (r : Option String) (tg : List String)
    (kw : List (String × Scalar)) (k : String) (v : Scalar)
    (h : (k, v) ∈ kw) :
    (k, v) ∈ (Task.init id name s e r tg kw).attributes ∧
    (Task.init id name s e r tg kw).attributes = kw :=
  ⟨h, rfl⟩

/-- Claim C5: parse_cli recognizes exactly the subcommands "list" (with
alias "ls") and "add", the subcommand is optional, each recognized form
parses to the corresponding command value, and any other positional is
rejected. -/
theorem parse_cli_subcommands :
    parse_cli [] = Except.ok ⟨none⟩ ∧
    parse_cli ["list"] = Except.ok ⟨some "list"⟩ ∧
    parse_cli ["ls"] = Except.ok ⟨some "ls"⟩ ∧
    parse_cli ["add"] = Except.ok ⟨some "add"⟩ ∧
    ∀ c : String, ¬(c = "list" ∨ c = "ls" ∨ c = "add") →
      parse_cli [c] = Except.error "invalid choice" := by
  refine ⟨rfl, rfl, rfl, rfl, ?_⟩
  intro c hc
  simp only [parse_cli]
  rw [if_neg hc]

/-- Witness for C5 at the concrete unrecognized positional "remove". -/
theorem parse_cli_subcommands_witness :
    parse_cli ["remove"] = Except.error "invalid choice" :=
  parse_cli_subcommands.2.2.2.2 "remove" (by decide)

/-- Claim C9: every successful parse yields a command among "list", "ls",
"add" and none, so the final Unreachable assertion in main never fires and
its else branch is dead code. -/
theorem main_unreachable_dead (argv : List String) (args : CliArgs)
    (h : parse_cli argv = Except.ok args) :
    (args.command = some "list" ∨ args.command = some "ls" ∨
      args.command = some "add" ∨ args.command = none) ∧
    main argv ≠ MainResult.assertionError "Unreachable" := by
  obtain ⟨c⟩ := args
  cases argv with
  | nil =>
      simp only [parse_cli, Except.ok.injEq, CliArgs.mk.injEq] at h
      subst h
      decide
  | cons cmd rest =>
      cases rest with
      | nil =>
          simp only [parse_cli] at h
          split at h
          · rename_i hcond
            simp only [Except.ok.injEq, CliArgs.mk.injEq] at h
            subst h
            rcases hcond with rfl | rfl | rfl <;> decide
          · exact absurd h (by simp)
      | cons b bs =>
          simp only [parse_cli] at h
          split at h <;> exact absurd h (by simp)

/-- Witness for C9 at the concrete argument list ["ls"]. -/
theorem main_unreachable_dead_witness :
    ((some "ls" : Option String) = some "list" ∨
      (some "ls" : Option String) = some "ls" ∨
      (some "ls" : Option String) = some "add" ∨
      (some "ls" : Option String) = none) ∧
    main ["ls"] ≠ MainResult.assertionError "Unreachable" :=
  main_unreachable_dead ["ls"] ⟨some "ls"⟩ rfl

/-- Claim C6: validate fails with InvalidTask exactly when the name is
empty, or start > end with both present, or a repeat rule with interval
≤ 0 is present; in every other case it returns ok.  It is a pure function
of the task, so it has no side effects. -/
theorem validate_invalid_iff (t : SpecTask) :
    (validate t = Except.error CoreError.invalidTask ↔
      (t.name = "" ∨ specStartGtEnd t = true ∨
        ∃ r, t.repeat_ = some r ∧ r.interval ≤ 0)) ∧
    (validate t = Except.error CoreError.invalidTask ∨
      validate t = Except.ok ()) := by
  by_cases h1 : t.name = ""
  · exact ⟨by simp [validate, h1], Or.inl (by simp [validate, h1])⟩
  · by_cases h2 : specStartGtEnd t = true
    · exact ⟨by simp [validate, h1, h2], Or.inl (by simp [validate, h1, h2])⟩
    · cases ht : t.repeat_ with
      | none =>
          exact ⟨by simp [validate, h1, h2, ht],
            Or.inr (by simp [validate, h1, h2, ht])⟩
      | some r =>
          by_cases h3 : r.interval ≤ 0
          · exact ⟨by simp [validate, h1, h2, ht, h3],
              Or.inl (by simp [validate, h1, h2, ht, h3])⟩
          · exact ⟨by simp [validate, h1, h2, ht, h3],
              Or.inr (by simp [validate, h1, h2, ht, h3])⟩

/-- Every date the expansion loop emits lies inside the window [lo, hi]. -/
theorem expandAux_mem_window (r : RecurrenceRule) (lo hi : Date) :
    ∀ (fuel : Nat) (pos : Date) (k : Nat) (d : Date),
      d ∈ expandAux r lo hi fuel pos k →
        lo.ble d = true ∧ d.ble hi = true := by
  intro fuel
  induction fuel with
  | zero =>
      intro pos k d hd
      simp [expandAux] at hd
  | succ n ih =>
      intro pos k d hd
      simp only [expandAux] at hd
      split at hd
      · simp at hd
      · split at hd
        · simp at hd
        · rename_i hstop
          rw [List.mem_append] at hd
          rcases hd with hd | hd
          · split at hd
            · rename_i hlo
              rw [List.mem_singleton] at hd
              subst hd
              refine ⟨hlo, ?_⟩
              simpa using hstop
            · simp at hd
          · exact ih (stepOnce r pos) (k + 1) d hd

/-- Claim C7: expand is a pure function of its four arguments (identical
arguments give identical results) and its output is a finite list every
element of which lies inside the query window, even when the rule has no
end condition. -/
theorem expand_pure_window_bounded (r : RecurrenceRule)
    (anchor lo hi : Date) :
    expand r anchor lo hi = expand r anchor lo hi ∧
    ∀ ds, expand r anchor lo hi = Except.ok ds →
      ∀ d ∈ ds, lo.ble d = true ∧ d.ble hi = true := by
  refine ⟨rfl, ?_⟩
  intro ds hds d hd
  unfold expand at hds
  split at hds
  · exact absurd hds (by simp)
  · split at hds
    · exact absurd hds (by simp)
    · simp only [Except.ok.injEq] at hds
      subst hds
      exact expandAux_mem_window r lo hi (hi.rank + 1) anchor 0 d hd

/-- Witness for C7 at the spec section 8 example: weekly interval 1 with no
end condition, anchored 2025-01-01, window [2025-01-01, 2025-01-22], yields
exactly the four January dates, and the theorem places 2025-01-08 inside
the window. -/
theorem expand_pure_window_bounded_witness :
    expand ⟨Frequency.weekly, 1, none⟩ ⟨2025, 1, 1⟩ ⟨2025, 1, 1⟩ ⟨2025, 1, 22⟩
        = Except.ok [⟨2025, 1, 1⟩, ⟨2025, 1, 8⟩, ⟨2025, 1, 15⟩, ⟨2025, 1, 22⟩] ∧
    (Date.ble ⟨2025, 1, 1⟩ ⟨2025, 1, 8⟩ = true ∧
      Date.ble ⟨2025, 1, 8⟩ ⟨2025, 1, 22⟩ = true) := by
  refine ⟨rfl, ?_⟩
  exact (expand_pure_window_bounded ⟨Frequency.weekly, 1, none⟩ ⟨2025, 1, 1⟩
      ⟨2025, 1, 1⟩ ⟨2025, 1, 22⟩).2
    [⟨2025, 1, 1⟩, ⟨2025, 1, 8⟩, ⟨2025, 1, 15⟩, ⟨2025, 1, 22⟩]
    rfl ⟨2025, 1, 8⟩ (by decide)

/-- Witness for C4 at a concrete unknown key. -/
theorem task_init_preserves_kwargs_witness :
    ("color", Scalar.str "red") ∈
      (Task.init 1 "n" none none none [] [("color", Scalar.str "red")]).attributes ∧
    (Task.init 1 "n" none none none [] [("color", Scalar.str "red")]).attributes
      = [("color", Scalar.str "red")] :=
  task_init_preserves_kwargs 1 "n" none none none []
    [("color", Scalar.str "red")] "color" (Scalar.str "red") (by decide)

end Planit
